import Mathlib

/-!
# golang-chirpy: the JSON document store, its repository operations and token lifetime

A shallow embedding of `internal/database/database.go`, `internal/auth/auth.go` and the
`ValidateAndWriteChirp` handler of `chirpRoutes.go`.

Modelling conventions.

* The file at `db.path` is a value of `Disk`: absent, or present with some content.  Content is
  kept at the level of what `json.Unmarshal` makes of it (`FileData`): zero bytes, bytes that do
  not decode, or bytes that decode to a `DBStructure`.  `json.Marshal` followed by
  `json.Unmarshal` is taken to give back the same `DBStructure`.
* A Go `map[int]T` is an association list `GoMap T`; a nil map is `none`.  Go ranges over a map
  in an unspecified order; the embedding ranges in list order.
* Go `int` is 64 bits wide; `n + 1` on an `int` is `wrapInt (n + 1)`.
* Every repository call takes a `Faults` record saying which kinds of system call report an
  error during that call, and what a failing `os.WriteFile` leaves in the file.  `log.Fatal`
  ends the process: `Outcome.fatal`.
* The lock `db.mux` is not represented: calls are composed one after the other.
* `bcrypt.GenerateFromPassword` is the parameter `hash` of the call that uses it (the string the
  call stores: the hash, or the empty string when bcrypt reports an error, which the source
  ignores).  `strings.ToLower` is the parameter `toLower`.
-/

namespace Chirpy

/-! ## Data model (`database.go`, lines 13-33) -/

/-- Go `map[int]T` as an association list; the first entry for a key is the one in force. -/
abbrev GoMap (α : Type) := List (Int × α)

/-- The map read `v, ok := m[k]`. -/
def mapGet {α : Type} : GoMap α → Int → Option α
  | [], _ => none
  | (k1, v) :: rest, k => if k1 = k then some v else mapGet rest k

/-- The map write `m[k] = v`: the old entry for `k`, if any, is replaced. -/
def mapSet {α : Type} (m : GoMap α) (k : Int) (v : α) : GoMap α :=
  (k, v) :: m.filter (fun e => decide (e.1 ≠ k))

/-- The values met by `for _, v := range m`. -/
def mapValues {α : Type} (m : GoMap α) : List α :=
  m.map Prod.snd

/-- Two's-complement wrap of a 64-bit Go `int`. -/
def wrapInt (x : Int) : Int :=
  (x + 9223372036854775808) % 18446744073709551616 - 9223372036854775808

structure Chirp where
  Id : Int
  Body : String
  deriving DecidableEq, Repr

structure User where
  Id : Int
  Email : String
  Password : String
  deriving DecidableEq, Repr

/-- The persisted document; `none` is a nil map (JSON `null`). -/
structure DBStructure where
  Chirps : Option (GoMap Chirp)
  Users : Option (GoMap User)
  deriving DecidableEq, Repr

/-- The in-memory handle: only `lastid` carries state (`path` is the `Disk` argument of every
call, `mux` is not represented). -/
structure DB where
  lastid : Int
  deriving DecidableEq, Repr

/-- Content of the file at `db.path`, as `loadDB` sees it. -/
inductive FileData where
  | empty
  | garbled
  | doc (d : DBStructure)
  deriving DecidableEq, Repr

/-- The file at `db.path`: `none` when it does not exist. -/
abbrev Disk := Option FileData

/-- How a call of `os.WriteFile`, which opens the file with `O_CREATE|O_TRUNC` and then
writes, ends: without error; with an error from the open, the file untouched; or with an error
after the open has emptied the file, leaving no bytes or (`someBytes`) a beginning of the
data, which does not decode. -/
inductive WriteEnd where
  | done
  | refused
  | cutShort (someBytes : Bool)
  deriving DecidableEq, Repr

/-- Which system calls report an error during one repository call. -/
structure Faults where
  stat : Bool
  read : Bool
  write : WriteEnd
  deriving DecidableEq, Repr

/-- Storage operations succeed. -/
def noFaults : Faults := ⟨false, false, WriteEnd.done⟩

inductive DBError where
  | storage
  | corrupt
  | userExists
  | userMissing
  | chirpMissing
  deriving DecidableEq, Repr

/-- Result of a call: a value with a nil error, a non-nil error, or the process was ended by
`log.Fatal`. -/
inductive Outcome (α : Type) where
  | ok (a : α)
  | error (e : DBError)
  | fatal
  deriving DecidableEq, Repr

/-! ## Document store (`database.go`, lines 35-101) -/

/-- The value `DBStructure{}`, which `json.Marshal` writes with both maps `null`. -/
def emptyData : DBStructure := ⟨none, none⟩

/-- Library `os.WriteFile(db.path, data, 0666)`: whether the error is nil, and the file
afterwards. -/
def WriteFile (w : WriteEnd) (disk : Disk) (data : FileData) : Bool × Disk :=
  match w with
  | WriteEnd.done => (true, some data)
  | WriteEnd.refused => (false, disk)
  | WriteEnd.cutShort false => (false, some FileData.empty)
  | WriteEnd.cutShort true => (false, some FileData.garbled)

/-- Source `ensureDB`: creates the file holding `emptyData` when `os.Stat` says it does not
exist.  The Boolean is false when the process was ended by `log.Fatal`; otherwise the source
returns a nil error. -/
def ensureDB (f : Faults) (disk : Disk) : Bool × Disk :=
  if f.stat then (false, disk)
  else
    match disk with
    | none => WriteFile f.write none (FileData.doc emptyData)
    | some c => (true, some c)

/-- Source `loadDB`: decoding starts from `DBStructure{Chirps: make(map[int]Chirp)}` and is
skipped for a file of zero bytes. -/
def loadDB (f : Faults) (disk : Disk) : Outcome DBStructure × Disk :=
  match ensureDB f disk with
  | (false, disk1) => (Outcome.fatal, disk1)
  | (true, disk1) =>
    if f.read then (Outcome.error DBError.storage, disk1)
    else
      match disk1 with
      | none => (Outcome.error DBError.storage, disk1)
      | some FileData.empty => (Outcome.ok ⟨some [], none⟩, disk1)
      | some FileData.garbled => (Outcome.error DBError.corrupt, disk1)
      | some (FileData.doc d) => (Outcome.ok d, disk1)

/-- Source `writeDB`: the whole document replaces the file's content; when `os.WriteFile`
fails the file is what the failed call left. -/
def writeDB (f : Faults) (disk : Disk) (dbData : DBStructure) : Outcome Unit × Disk :=
  match ensureDB f disk with
  | (false, disk1) => (Outcome.fatal, disk1)
  | (true, disk1) =>
    match WriteFile f.write disk1 (FileData.doc dbData) with
    | (false, disk2) => (Outcome.error DBError.storage, disk2)
    | (true, disk2) => (Outcome.ok (), disk2)

/-- Source `NewDB`: `lastid` is the zero value of `int`; the result of `ensureDB` is dropped.
`none` is `log.Fatal`. -/
def NewDB (f : Faults) (disk : Disk) : Option (DB × Disk) :=
  match ensureDB f disk with
  | (false, _) => none
  | (true, disk1) => some (⟨0⟩, disk1)

/-! ## Repository operations (`database.go`, lines 103-242) -/

/-- Source `CreateChirp`. -/
def CreateChirp (f : Faults) (db : DB) (disk : Disk) (body : String) :
    Outcome Chirp × DB × Disk :=
  match loadDB f disk with
  | (Outcome.fatal, disk1) => (Outcome.fatal, db, disk1)
  | (Outcome.error e, disk1) => (Outcome.error e, db, disk1)
  | (Outcome.ok dbData, disk1) =>
    let last_id := db.lastid
    let chirp : Chirp := ⟨wrapInt (last_id + 1), body⟩
    let chirps := mapSet (dbData.Chirps.getD []) chirp.Id chirp
    match writeDB f disk1 ⟨some chirps, dbData.Users⟩ with
    | (Outcome.fatal, disk2) => (Outcome.fatal, db, disk2)
    | (Outcome.error e, disk2) => (Outcome.error e, db, disk2)
    | (Outcome.ok _, disk2) => (Outcome.ok chirp, ⟨wrapInt (db.lastid + 1)⟩, disk2)

/-- Source `GetUserIdByEmail`: the error of `loadDB` is dropped, so a failed load scans
`DBStructure{}`.  The Boolean does not depend on the order of the scan. -/
def GetUserIdByEmail (f : Faults) (disk : Disk) (email : String) :
    Outcome (User × Bool) × Disk :=
  match loadDB f disk with
  | (Outcome.fatal, disk1) => (Outcome.fatal, disk1)
  | (r, disk1) =>
    let dbData : DBStructure :=
      match r with
      | Outcome.ok d => d
      | _ => emptyData
    match (mapValues (dbData.Users.getD [])).find? (fun dbuser => decide (dbuser.Email = email)) with
    | some dbuser => (Outcome.ok (dbuser, true), disk1)
    | none => (Outcome.ok (⟨0, "", ""⟩, false), disk1)

/-- Source `CreateUser`. -/
def CreateUser (hash : String → String) (f : Faults) (db : DB) (disk : Disk) (user : User) :
    Outcome User × DB × Disk :=
  match loadDB f disk with
  | (Outcome.fatal, disk1) => (Outcome.fatal, db, disk1)
  | (Outcome.error e, disk1) => (Outcome.error e, db, disk1)
  | (Outcome.ok dbData, disk1) =>
    match GetUserIdByEmail f disk1 user.Email with
    | (Outcome.fatal, disk2) => (Outcome.fatal, db, disk2)
    | (Outcome.error e, disk2) => (Outcome.error e, db, disk2)
    | (Outcome.ok (_, true), disk2) => (Outcome.error DBError.userExists, db, disk2)
    | (Outcome.ok (_, false), disk2) =>
      let last_id := db.lastid
      let user1 : User := ⟨wrapInt (last_id + 1), user.Email, hash user.Password⟩
      let users := mapSet (dbData.Users.getD []) user1.Id user1
      match writeDB f disk2 ⟨dbData.Chirps, some users⟩ with
      | (Outcome.fatal, disk3) => (Outcome.fatal, db, disk3)
      | (Outcome.error e, disk3) => (Outcome.error e, db, disk3)
      | (Outcome.ok _, disk3) =>
        (Outcome.ok ⟨user1.Id, user1.Email, ""⟩, ⟨wrapInt (db.lastid + 1)⟩, disk3)

/-- Source `UpdateUser`. -/
def UpdateUser (hash : String → String) (f : Faults) (db : DB) (disk : Disk) (user : User) :
    Outcome User × DB × Disk :=
  match loadDB f disk with
  | (Outcome.fatal, disk1) => (Outcome.fatal, db, disk1)
  | (Outcome.error e, disk1) => (Outcome.error e, db, disk1)
  | (Outcome.ok dbData, disk1) =>
    match mapGet (dbData.Users.getD []) user.Id with
    | none => (Outcome.error DBError.userMissing, db, disk1)
    | some _ =>
      let user1 : User := ⟨user.Id, user.Email, hash user.Password⟩
      let users := mapSet (dbData.Users.getD []) user1.Id user1
      match writeDB f disk1 ⟨dbData.Chirps, some users⟩ with
      | (Outcome.fatal, disk2) => (Outcome.fatal, db, disk2)
      | (Outcome.error e, disk2) => (Outcome.error e, db, disk2)
      | (Outcome.ok _, disk2) => (Outcome.ok ⟨user1.Id, user1.Email, ""⟩, db, disk2)

/-- Source `GetChirps`. -/
def GetChirps (f : Faults) (disk : Disk) : Outcome (List Chirp) × Disk :=
  match loadDB f disk with
  | (Outcome.fatal, disk1) => (Outcome.fatal, disk1)
  | (Outcome.error e, disk1) => (Outcome.error e, disk1)
  | (Outcome.ok dbData, disk1) => (Outcome.ok (mapValues (dbData.Chirps.getD [])), disk1)

/-- Source `GetChirpById`. -/
def GetChirpById (f : Faults) (disk : Disk) (id : Int) : Outcome Chirp × Disk :=
  match loadDB f disk with
  | (Outcome.fatal, disk1) => (Outcome.fatal, disk1)
  | (Outcome.error e, disk1) => (Outcome.error e, disk1)
  | (Outcome.ok dbData, disk1) =>
    match mapGet (dbData.Chirps.getD []) id with
    | none => (Outcome.error DBError.chirpMissing, disk1)
    | some chirp => (Outcome.ok chirp, disk1)

/-! ## The message-creation handler (`chirpRoutes.go`, lines 11-46; `main.go`, lines 53-65) -/

/-- What is handed to `json.Marshal` before being written to the response. -/
inductive Payload where
  | errResp (Error : String)
  | chirp (c : Chirp)
  deriving DecidableEq, Repr

/-- One call on the `http.ResponseWriter`. -/
inductive RespEvent where
  | WriteHeader (code : Nat)
  | Write (p : Payload)
  deriving DecidableEq, Repr

/-- Source `ResponseWithError`, on the list of calls made on `w` so far. -/
def ResponseWithError (w : List RespEvent) (code : Nat) (message : String) : List RespEvent :=
  w ++ [RespEvent.WriteHeader code, RespEvent.Write (Payload.errResp message)]

/-- Source `ResponseWithSuccess`. -/
def ResponseWithSuccess (w : List RespEvent) (code : Nat) (message : Payload) : List RespEvent :=
  w ++ [RespEvent.WriteHeader code, RespEvent.Write message]

/-- Go `strings.Split(s, " ")` on the characters of `s`. -/
def splitOnSpace : List Char → List (List Char)
  | [] => [[]]
  | c :: cs =>
    if c = ' ' then [] :: splitOnSpace cs
    else
      match splitOnSpace cs with
      | [] => [[c]]
      | w :: ws => (c :: w) :: ws

def profanities : List String := ["kerfuffle", "sharbert", "fornax"]

/-- The inner loop of the handler for one `word`: every profanity is compared with the lowered
`word` as it was split off, and a match overwrites `words[idx]`. -/
def cleanWord (toLower : String → String) (word : String) : String :=
  profanities.foldl (fun cur profanity => if toLower word = profanity then "****" else cur) word

/-- Lines 27-36 of the handler: split, replace, join. -/
def cleanBody (toLower : String → String) (body : String) : String :=
  " ".intercalate (((splitOnSpace body.data).map String.mk).map (cleanWord toLower))

/-- What a run of the handler leaves behind. -/
structure HandlerResult where
  resp : List RespEvent
  exited : Bool
  db : DB
  disk : Disk
  deriving DecidableEq, Repr

/-- Source `ValidateAndWriteChirp`.  The request is given by what `decoder.Decode` did:
`decodeErr` says that it returned an error, `body` is `chirps.Body` afterwards.  `len` of a Go
string counts bytes.  Neither error response is followed by a `return`. -/
def ValidateAndWriteChirp (toLower : String → String) (f : Faults) (db : DB) (disk : Disk)
    (decodeErr : Bool) (body : String) : HandlerResult :=
  let w0 : List RespEvent := []
  let w1 := if decodeErr then ResponseWithError w0 500 "Something went wrong" else w0
  let w2 := if body.utf8ByteSize > 140 then ResponseWithError w1 400 "Chirp is too long" else w1
  let body1 := cleanBody toLower body
  match CreateChirp f db disk body1 with
  | (Outcome.fatal, db1, disk1) => ⟨w2, true, db1, disk1⟩
  | (Outcome.error _, db1, disk1) =>
    ⟨ResponseWithError w2 500 "Error creating chirp in db", false, db1, disk1⟩
  | (Outcome.ok dbChirp, db1, disk1) =>
    ⟨ResponseWithSuccess w2 201 (Payload.chirp dbChirp), false, db1, disk1⟩

/-! ## Token lifetime (`auth.go`, lines 11-23) -/

/-- The claims that `GetJWTToken` signs; times are nanoseconds since the Unix epoch, and a
`NumericDate` is a time truncated to the second. -/
structure RegisteredClaims where
  Issuer : String
  IssuedAt : Int
  ExpiresAt : Int
  Subject : String
  deriving DecidableEq, Repr

def default24hours : Int := 24 * 60 * 60

/-- The constant `time.Second`, in nanoseconds. -/
def timeSecond : Int := 1000000000

/-- Library `jwt.NewNumericDate`: `t.Truncate(time.Second)`. -/
def NewNumericDate (t : Int) : Int := t - t % timeSecond

/-- Lines 12-15 of `GetJWTToken`: the value of `duration` when the claims are built. -/
def effectiveDuration (duration : Int) : Int :=
  if duration = 0 ∨ duration > default24hours then default24hours else duration

/-- Source `GetJWTToken`, up to the signing of the claims (`token.SignedString` is outside the
embedding).  `now1` and `now2` are what the two calls of `time.Now()` return.  The product
`time.Second * time.Duration(duration)` is a 64-bit product. -/
def GetJWTToken (now1 now2 : Int) (duration : Int) (userId : Int) : RegisteredClaims :=
  let duration1 := effectiveDuration duration
  ⟨"chirpy", NewNumericDate now1, NewNumericDate (now2 + wrapInt (timeSecond * duration1)),
    toString userId⟩

/-! ## Drivers and predicates used to state the properties -/

/-- A run of `CreateChirp` calls one after the other on one instance (the order in which the
exclusive lock admits them), with the result of every call. -/
def createChirps (f : Faults) : List String → DB → Disk → List (Outcome Chirp) × DB × Disk
  | [], db, disk => ([], db, disk)
  | body :: rest, db, disk =>
    match CreateChirp f db disk body with
    | (r, db1, disk1) =>
      match createChirps f rest db1 disk1 with
      | (rs, db2, disk2) => (r :: rs, db2, disk2)

/-- No two accounts of the document share an email. -/
def emailsUnique (d : DBStructure) : Prop :=
  ((mapValues (d.Users.getD [])).map User.Email).Nodup

instance (d : DBStructure) : Decidable (emailsUnique d) := by
  unfold emailsUnique; infer_instance

/-- A stand-in for `strings.ToLower` that lowers the letters `A` to `Z` only; it agrees with the
Go function on ASCII strings. -/
def asciiLower (s : String) : String :=
  String.mk (s.data.map Char.toLower)

/-- A stand-in for `bcrypt.GenerateFromPassword`, used where a call is evaluated on given
inputs: the result starts with the bcrypt header and is never its argument. -/
def stubHash (p : String) : String :=
  "$2a$10$" ++ p

/-- A document holding one message, with id 1. -/
def oneChirpDoc : DBStructure :=
  ⟨some [(1, ⟨1, "first"⟩)], none⟩

/-- A document holding two accounts with different emails. -/
def twoAccountsDoc : DBStructure :=
  ⟨none, some [(2, ⟨2, "b@x.com", "$2a$10$two"⟩), (1, ⟨1, "a@x.com", "$2a$10$one"⟩)]⟩

/-! ## Facts about the document store when no system call fails -/

theorem loadDB_noFaults_ok {disk : Disk} {d : DBStructure}
    (h : (loadDB noFaults disk).1 = Outcome.ok d) :
    ∃ c : FileData, loadDB noFaults disk = (Outcome.ok d, some c) ∧
      loadDB noFaults (some c) = (Outcome.ok d, some c) ∧
      (disk = some c ∨ (disk = none ∧ c = FileData.doc emptyData)) := by
  rcases disk with _ | c
  · refine ⟨FileData.doc emptyData, ?_⟩
    simp [loadDB, ensureDB, WriteFile, noFaults] at h ⊢
    exact h
  · refine ⟨c, ?_⟩
    cases c <;> simp [loadDB, ensureDB, WriteFile, noFaults] at h ⊢ <;> exact h

theorem writeDB_noFaults (c : FileData) (x : DBStructure) :
    writeDB noFaults (some c) x = (Outcome.ok (), some (FileData.doc x)) := by
  simp [writeDB, ensureDB, WriteFile, noFaults]

theorem loadDB_noFaults_doc (x : DBStructure) :
    loadDB noFaults (some (FileData.doc x)) = (Outcome.ok x, some (FileData.doc x)) := by
  simp [loadDB, ensureDB, WriteFile, noFaults]

theorem wrapInt_succ_ne (x : Int) : wrapInt (x + 1) ≠ x := by
  unfold wrapInt
  omega

theorem wrapInt_of_inRange (x : Int) (h1 : -9223372036854775808 ≤ x)
    (h2 : x < 9223372036854775808) : wrapInt x = x := by
  unfold wrapInt
  omega

theorem mapGet_mapSet_same {α : Type} (m : GoMap α) (k : Int) (v : α) :
    mapGet (mapSet m k v) k = some v := by
  simp [mapSet, mapGet]

theorem mapGet_filter_ne {α : Type} (m : GoMap α) (k j : Int) (h : j ≠ k) :
    mapGet (m.filter (fun e => decide (e.1 ≠ k))) j = mapGet m j := by
  induction m with
  | nil => rfl
  | cons e rest ih =>
    obtain ⟨k1, v⟩ := e
    simp only [ne_eq, decide_not] at ih ⊢
    by_cases hk : k1 = k
    · have hj : ¬ k1 = j := by omega
      have hkj : ¬ k = j := by omega
      simp [List.filter, hk, mapGet, ih, hkj]
    · simp [List.filter, hk, mapGet, ih]

theorem mapGet_mapSet_other {α : Type} (m : GoMap α) (k j : Int) (v : α) (h : j ≠ k) :
    mapGet (mapSet m k v) j = mapGet m j := by
  have hk : ¬ k = j := fun e => h e.symm
  have hf := mapGet_filter_ne m k j h
  simp only [mapSet, mapGet, hk, if_false]
  exact hf

/-! ## Creating and reading back a message -/

theorem CreateChirp_noFaults (db : DB) (disk : Disk) (d : DBStructure) (body : String)
    (h : (loadDB noFaults disk).1 = Outcome.ok d) :
    CreateChirp noFaults db disk body =
      (Outcome.ok ⟨wrapInt (db.lastid + 1), body⟩, ⟨wrapInt (db.lastid + 1)⟩,
        some (FileData.doc ⟨some (mapSet (d.Chirps.getD []) (wrapInt (db.lastid + 1))
          ⟨wrapInt (db.lastid + 1), body⟩), d.Users⟩)) := by
  obtain ⟨c, h1, _, _⟩ := loadDB_noFaults_ok h
  simp [CreateChirp, h1, writeDB_noFaults]

/-- C4: for every body of at most 140 bytes and every store whose document loads (no system
call failing), `CreateChirp` succeeds and returns a record with the given body, and
`GetChirpById` on the returned id, run right after, succeeds with that same record. -/
theorem createChirp_then_getChirpById (db : DB) (disk : Disk) (d : DBStructure) (body : String)
    (_hlen : body.utf8ByteSize ≤ 140)
    (hload : (loadDB noFaults disk).1 = Outcome.ok d) :
    ∃ chirp db1 disk1, CreateChirp noFaults db disk body = (Outcome.ok chirp, db1, disk1) ∧
      chirp.Body = body ∧
      (GetChirpById noFaults disk1 chirp.Id).1 = Outcome.ok chirp := by
  refine ⟨_, _, _, CreateChirp_noFaults db disk d body hload, rfl, ?_⟩
  simp [GetChirpById, loadDB_noFaults_doc, mapGet_mapSet_same]

theorem createChirp_then_getChirpById_witness :
    ∃ chirp db1 disk1,
      CreateChirp noFaults ⟨0⟩ none "hello" = (Outcome.ok chirp, db1, disk1) ∧
      chirp.Body = "hello" ∧
      (GetChirpById noFaults disk1 chirp.Id).1 = Outcome.ok chirp :=
  createChirp_then_getChirpById ⟨0⟩ none emptyData "hello" (by decide) (by decide)

/-! ## The handler does not stop after its length check -/

/-- C1 (the code departs from it): for every body of 141 bytes, on every store whose document
loads, the handler writes the 400 response "Chirp is too long" and then still calls
`CreateChirp`: the 201 response follows, the record is written under the next id, `GetChirps`
returns it, and the id counter has moved on. -/
theorem validateAndWriteChirp_141_still_creates (toLower : String → String) (db : DB)
    (disk : Disk) (d : DBStructure) (body : String)
    (hlen : body.utf8ByteSize = 141)
    (hload : (loadDB noFaults disk).1 = Outcome.ok d) :
    ValidateAndWriteChirp toLower noFaults db disk false body =
      ⟨[RespEvent.WriteHeader 400, RespEvent.Write (Payload.errResp "Chirp is too long"),
        RespEvent.WriteHeader 201,
        RespEvent.Write (Payload.chirp ⟨wrapInt (db.lastid + 1), cleanBody toLower body⟩)],
       false, ⟨wrapInt (db.lastid + 1)⟩,
       some (FileData.doc ⟨some (mapSet (d.Chirps.getD []) (wrapInt (db.lastid + 1))
         ⟨wrapInt (db.lastid + 1), cleanBody toLower body⟩), d.Users⟩)⟩ ∧
    (GetChirps noFaults (ValidateAndWriteChirp toLower noFaults db disk false body).disk).1 =
      Outcome.ok (mapValues (mapSet (d.Chirps.getD []) (wrapInt (db.lastid + 1))
        ⟨wrapInt (db.lastid + 1), cleanBody toLower body⟩)) ∧
    wrapInt (db.lastid + 1) ≠ db.lastid := by
  have hrun : ValidateAndWriteChirp toLower noFaults db disk false body =
      ⟨[RespEvent.WriteHeader 400, RespEvent.Write (Payload.errResp "Chirp is too long"),
        RespEvent.WriteHeader 201,
        RespEvent.Write (Payload.chirp ⟨wrapInt (db.lastid + 1), cleanBody toLower body⟩)],
       false, ⟨wrapInt (db.lastid + 1)⟩,
       some (FileData.doc ⟨some (mapSet (d.Chirps.getD []) (wrapInt (db.lastid + 1))
         ⟨wrapInt (db.lastid + 1), cleanBody toLower body⟩), d.Users⟩)⟩ := by
    simp only [ValidateAndWriteChirp, CreateChirp_noFaults db disk d (cleanBody toLower body) hload,
      hlen]
    simp [ResponseWithError, ResponseWithSuccess]
  refine ⟨hrun, ?_, wrapInt_succ_ne _⟩
  rw [hrun]
  simp only [GetChirps, loadDB_noFaults_doc, Option.getD_some]

theorem body141_size : (String.mk (List.replicate 141 'a')).utf8ByteSize = 141 := by
  simp [String.utf8ByteSize, List.replicate]
  decide

set_option maxRecDepth 100000 in
theorem cleanBody_body141 :
    cleanBody asciiLower (String.mk (List.replicate 141 'a')) =
      String.mk (List.replicate 141 'a') := by
  decide

theorem validateAndWriteChirp_141_still_creates_witness :
    (GetChirps noFaults none).1 = Outcome.ok [] ∧
    cleanBody asciiLower (String.mk (List.replicate 141 'a')) =
      String.mk (List.replicate 141 'a') ∧
    (ValidateAndWriteChirp asciiLower noFaults ⟨0⟩ none false
        (String.mk (List.replicate 141 'a')) =
      ⟨[RespEvent.WriteHeader 400, RespEvent.Write (Payload.errResp "Chirp is too long"),
        RespEvent.WriteHeader 201,
        RespEvent.Write (Payload.chirp
          ⟨1, cleanBody asciiLower (String.mk (List.replicate 141 'a'))⟩)],
       false, ⟨1⟩,
       some (FileData.doc
         ⟨some [(1, ⟨1, cleanBody asciiLower (String.mk (List.replicate 141 'a'))⟩)], none⟩)⟩ ∧
    (GetChirps noFaults (ValidateAndWriteChirp asciiLower noFaults ⟨0⟩ none false
        (String.mk (List.replicate 141 'a'))).disk).1 =
      Outcome.ok [⟨1, cleanBody asciiLower (String.mk (List.replicate 141 'a'))⟩] ∧
    (1 : Int) ≠ 0) :=
  ⟨by decide, cleanBody_body141,
    validateAndWriteChirp_141_still_creates asciiLower ⟨0⟩ none emptyData
      (String.mk (List.replicate 141 'a')) body141_size (by decide)⟩

/-! ## Accounts -/

theorem find_email_none {users : GoMap User} {email : String}
    (h : ∀ u ∈ mapValues users, u.Email ≠ email) :
    (mapValues users).find? (fun dbuser => decide (dbuser.Email = email)) = none := by
  rw [List.find?_eq_none]
  intro u hu
  simpa using h u hu

theorem find_email_some {users : GoMap User} {email : String} {u : User}
    (hu : u ∈ mapValues users) (he : u.Email = email) :
    ∃ v, (mapValues users).find? (fun dbuser => decide (dbuser.Email = email)) = some v := by
  cases hf : (mapValues users).find? (fun dbuser => decide (dbuser.Email = email)) with
  | some v => exact ⟨v, rfl⟩
  | none =>
    rw [List.find?_eq_none] at hf
    have := hf u hu
    simp [he] at this

theorem CreateUser_noFaults_new (hash : String → String) (db : DB) (disk : Disk)
    (d : DBStructure) (user : User)
    (h : (loadDB noFaults disk).1 = Outcome.ok d)
    (hnew : ∀ u ∈ mapValues (d.Users.getD []), u.Email ≠ user.Email) :
    CreateUser hash noFaults db disk user =
      (Outcome.ok ⟨wrapInt (db.lastid + 1), user.Email, ""⟩, ⟨wrapInt (db.lastid + 1)⟩,
        some (FileData.doc ⟨d.Chirps, some (mapSet (d.Users.getD []) (wrapInt (db.lastid + 1))
          ⟨wrapInt (db.lastid + 1), user.Email, hash user.Password⟩)⟩)) := by
  obtain ⟨c, h1, h2, _⟩ := loadDB_noFaults_ok h
  simp [CreateUser, GetUserIdByEmail, h1, h2, find_email_none hnew, writeDB_noFaults]

theorem CreateUser_noFaults_taken (hash : String → String) (db : DB) (disk : Disk)
    (d : DBStructure) (user : User) (u : User)
    (h : (loadDB noFaults disk).1 = Outcome.ok d)
    (hu : u ∈ mapValues (d.Users.getD [])) (he : u.Email = user.Email) :
    ∃ c : FileData,
      CreateUser hash noFaults db disk user = (Outcome.error DBError.userExists, db, some c) ∧
      (disk = some c ∨ (disk = none ∧ c = FileData.doc emptyData)) := by
  obtain ⟨c, h1, h2, h3⟩ := loadDB_noFaults_ok h
  obtain ⟨v, hv⟩ := find_email_some hu he
  refine ⟨c, ?_, h3⟩
  simp [CreateUser, GetUserIdByEmail, h1, h2, hv]

theorem filter_email_of_fresh {email : String} (m : GoMap User) (q : Int × User → Bool)
    (hnew : ∀ u ∈ mapValues m, u.Email ≠ email) :
    (mapValues (m.filter q)).filter (fun a => decide (a.Email = email)) = [] := by
  rw [List.filter_eq_nil_iff]
  intro a ha
  have hmem : a ∈ mapValues m := by
    simp only [mapValues, List.mem_map] at ha ⊢
    obtain ⟨e, he, rfl⟩ := ha
    exact ⟨e, (List.mem_filter.mp he).1, rfl⟩
  simpa using hnew a hmem

/-- C3: on a store whose document loads and holds no account with the given email, the first
`CreateUser` with that email succeeds and the second one, whatever its password, fails with
"user already exists"; the document after the second call is the document after the first,
the id counter has advanced once, and exactly one account has that email. -/
theorem createUser_twice_same_email (hash1 hash2 : String → String) (db : DB) (disk : Disk)
    (d : DBStructure) (email pw1 pw2 : String) (id1 id2 : Int)
    (hload : (loadDB noFaults disk).1 = Outcome.ok d)
    (hnew : ∀ u ∈ mapValues (d.Users.getD []), u.Email ≠ email) :
    ∃ u db1 d1,
      CreateUser hash1 noFaults db disk ⟨id1, email, pw1⟩ =
        (Outcome.ok u, db1, some (FileData.doc d1)) ∧
      CreateUser hash2 noFaults db1 (some (FileData.doc d1)) ⟨id2, email, pw2⟩ =
        (Outcome.error DBError.userExists, db1, some (FileData.doc d1)) ∧
      db1.lastid = wrapInt (db.lastid + 1) ∧
      ((mapValues (d1.Users.getD [])).filter (fun a => decide (a.Email = email))).length = 1 := by
  refine ⟨_, _, _, CreateUser_noFaults_new hash1 db disk d ⟨id1, email, pw1⟩ hload hnew, ?_, rfl,
    ?_⟩
  · have hmem : (⟨wrapInt (db.lastid + 1), email, hash1 pw1⟩ : User) ∈
        mapValues (mapSet (d.Users.getD []) (wrapInt (db.lastid + 1))
          ⟨wrapInt (db.lastid + 1), email, hash1 pw1⟩) := by
      simp [mapValues, mapSet]
    obtain ⟨c, hc, hd⟩ := CreateUser_noFaults_taken hash2 ⟨wrapInt (db.lastid + 1)⟩ _
      ⟨d.Chirps, some (mapSet (d.Users.getD []) (wrapInt (db.lastid + 1))
        ⟨wrapInt (db.lastid + 1), email, hash1 pw1⟩)⟩
      ⟨id2, email, pw2⟩ _ (by rw [loadDB_noFaults_doc]) hmem rfl
    rcases hd with hd | ⟨hd, _⟩
    · rw [hc, ← hd]
    · cases hd
  · have := filter_email_of_fresh (d.Users.getD [])
      (fun e => decide (e.1 ≠ wrapInt (db.lastid + 1))) hnew
    simp only [mapValues] at this
    simp only [Option.getD_some, mapSet, mapValues, List.map_cons, List.filter_cons, this,
      decide_True, if_true, List.length_singleton]

theorem createUser_twice_same_email_witness :
    ∃ u db1 d1,
      CreateUser (fun p => "$2a$10$" ++ p) noFaults ⟨0⟩ none ⟨0, "a@x.com", "pw"⟩ =
        (Outcome.ok u, db1, some (FileData.doc d1)) ∧
      CreateUser (fun p => "$2a$10$" ++ p ++ "salt2") noFaults db1 (some (FileData.doc d1))
          ⟨0, "a@x.com", "other"⟩ =
        (Outcome.error DBError.userExists, db1, some (FileData.doc d1)) ∧
      db1.lastid = wrapInt ((⟨0⟩ : DB).lastid + 1) ∧
      ((mapValues (d1.Users.getD [])).filter
        (fun a => decide (a.Email = "a@x.com"))).length = 1 :=
  createUser_twice_same_email (fun p => "$2a$10$" ++ p) (fun p => "$2a$10$" ++ p ++ "salt2")
    ⟨0⟩ none emptyData "a@x.com" "pw" "other" 0 0 (by decide) (by simp [emptyData, mapValues])

/-- C5: on a store just created by `NewDB` at a path that did not exist, `CreateUser` with any
email and plaintext password (for instance "a@x.com" and "pw") returns the account with id 1,
that email and an empty `Password`; the persisted `users[1].password` is the hash of the
plaintext, and differs from the plaintext as the hash output does. -/
theorem createUser_on_fresh_store (hash : String → String) (email pw : String) (id0 : Int)
    (hhash : hash pw ≠ pw) :
    ∃ db disk, NewDB noFaults none = some (db, disk) ∧
      ∃ db1 d1 stored,
        CreateUser hash noFaults db disk ⟨id0, email, pw⟩ =
          (Outcome.ok ⟨1, email, ""⟩, db1, some (FileData.doc d1)) ∧
        mapGet (d1.Users.getD []) 1 = some stored ∧
        stored.Password = hash pw ∧ stored.Password ≠ pw := by
  refine ⟨⟨0⟩, some (FileData.doc emptyData), by simp [NewDB, ensureDB, WriteFile, noFaults], ?_⟩
  have hc := CreateUser_noFaults_new hash ⟨0⟩ (some (FileData.doc emptyData)) emptyData
    ⟨id0, email, pw⟩ (by rw [loadDB_noFaults_doc]) (by simp [emptyData, mapValues])
  have hw : wrapInt ((0 : Int) + 1) = 1 := by decide
  simp only [hw] at hc
  exact ⟨_, _, ⟨1, email, hash pw⟩, hc, by simp [mapGet_mapSet_same], rfl, hhash⟩

theorem createUser_on_fresh_store_witness :
    "$2a$10$" ++ "pw" ≠ "pw" ∧
    ∃ db disk, NewDB noFaults none = some (db, disk) ∧
      ∃ db1 d1 stored,
        CreateUser (fun p => "$2a$10$" ++ p) noFaults db disk ⟨0, "a@x.com", "pw"⟩ =
          (Outcome.ok ⟨1, "a@x.com", ""⟩, db1, some (FileData.doc d1)) ∧
        mapGet (d1.Users.getD []) 1 = some stored ∧
        stored.Password = "$2a$10$" ++ "pw" ∧ stored.Password ≠ "pw" :=
  ⟨by decide, createUser_on_fresh_store (fun p => "$2a$10$" ++ p) "a@x.com" "pw" 0 (by decide)⟩

/-- C9: on a store whose document loads, `UpdateUser` with an id that is not a key of the
accounts mapping fails with "user does not exist" and leaves the document and the id counter
as they were (a file that did not exist is created holding the empty document); with an id
that is a key it succeeds, stores the new email and the hash of the new password under that
id, returns the account with an empty `Password`, and leaves every other account and all
messages as they were. -/
theorem updateUser_spec (hash : String → String) (db : DB) (disk : Disk) (d : DBStructure)
    (user : User) (hload : (loadDB noFaults disk).1 = Outcome.ok d) :
    match mapGet (d.Users.getD []) user.Id with
    | none =>
      ∃ c : FileData,
        UpdateUser hash noFaults db disk user =
          (Outcome.error DBError.userMissing, db, some c) ∧
        loadDB noFaults (some c) = (Outcome.ok d, some c) ∧
        (disk = some c ∨ (disk = none ∧ c = FileData.doc emptyData))
    | some _ =>
      ∃ d1 : DBStructure,
        UpdateUser hash noFaults db disk user =
          (Outcome.ok ⟨user.Id, user.Email, ""⟩, db, some (FileData.doc d1)) ∧
        mapGet (d1.Users.getD []) user.Id = some ⟨user.Id, user.Email, hash user.Password⟩ ∧
        (∀ k, k ≠ user.Id → mapGet (d1.Users.getD []) k = mapGet (d.Users.getD []) k) ∧
        d1.Chirps = d.Chirps := by
  obtain ⟨c, h1, h2, h3⟩ := loadDB_noFaults_ok hload
  cases hg : mapGet (d.Users.getD []) user.Id with
  | none =>
    refine ⟨c, ?_, h2, h3⟩
    simp [UpdateUser, h1, hg]
  | some old =>
    refine ⟨⟨d.Chirps, some (mapSet (d.Users.getD []) user.Id
      ⟨user.Id, user.Email, hash user.Password⟩)⟩, ?_, ?_, ?_, rfl⟩
    · simp [UpdateUser, h1, hg, writeDB_noFaults]
    · simp [mapGet_mapSet_same]
    · intro k hk
      simp [mapGet_mapSet_other _ _ _ _ hk]

theorem updateUser_spec_witness :
    (∃ c : FileData,
        UpdateUser stubHash noFaults ⟨2⟩ (some (FileData.doc twoAccountsDoc))
            ⟨7, "c@x.com", "pw"⟩ =
          (Outcome.error DBError.userMissing, ⟨2⟩, some c) ∧
        loadDB noFaults (some c) = (Outcome.ok twoAccountsDoc, some c) ∧
        (some (FileData.doc twoAccountsDoc) = some c ∨
          (some (FileData.doc twoAccountsDoc) = none ∧ c = FileData.doc emptyData))) ∧
    (∃ d1 : DBStructure,
        UpdateUser stubHash noFaults ⟨2⟩ (some (FileData.doc twoAccountsDoc))
            ⟨2, "c@x.com", "pw"⟩ =
          (Outcome.ok ⟨2, "c@x.com", ""⟩, ⟨2⟩, some (FileData.doc d1)) ∧
        mapGet (d1.Users.getD []) 2 = some ⟨2, "c@x.com", stubHash "pw"⟩ ∧
        (∀ k, k ≠ 2 → mapGet (d1.Users.getD []) k = mapGet (twoAccountsDoc.Users.getD []) k) ∧
        d1.Chirps = twoAccountsDoc.Chirps) :=
  ⟨updateUser_spec stubHash ⟨2⟩ (some (FileData.doc twoAccountsDoc)) twoAccountsDoc
      ⟨7, "c@x.com", "pw"⟩ (by decide),
    updateUser_spec stubHash ⟨2⟩ (some (FileData.doc twoAccountsDoc)) twoAccountsDoc
      ⟨2, "c@x.com", "pw"⟩ (by decide)⟩

/-- C10 (the code departs from it): `UpdateUser` stores the new email without the scan that
`CreateUser` makes.  On a document whose two accounts have different emails, updating
account 2 to the email of account 1 succeeds, and afterwards two accounts share an email. -/
theorem updateUser_breaks_emailsUnique (hash : String → String) :
    emailsUnique twoAccountsDoc ∧
    ∃ d1 : DBStructure,
      UpdateUser hash noFaults ⟨2⟩ (some (FileData.doc twoAccountsDoc)) ⟨2, "a@x.com", "pw"⟩ =
        (Outcome.ok ⟨2, "a@x.com", ""⟩, ⟨2⟩, some (FileData.doc d1)) ∧
      mapGet (d1.Users.getD []) 1 = some ⟨1, "a@x.com", "$2a$10$one"⟩ ∧
      mapGet (d1.Users.getD []) 2 = some ⟨2, "a@x.com", hash "pw"⟩ ∧
      ¬ emailsUnique d1 := by
  refine ⟨by decide, ⟨none, some [(2, ⟨2, "a@x.com", hash "pw"⟩),
    (1, ⟨1, "a@x.com", "$2a$10$one"⟩)]⟩, ?_, ?_, ?_, ?_⟩
  · simp [UpdateUser, loadDB_noFaults_doc, writeDB_noFaults, twoAccountsDoc, mapGet, mapSet]
  · simp [mapGet]
  · simp [mapGet]
  · simp [emailsUnique, mapValues]

/-- The two creating operations keep emails unique: `CreateChirp` leaves the accounts as they
are, and `CreateUser` only succeeds with an email that no stored account has. -/
theorem creates_keep_emailsUnique (hash : String → String) (db : DB) (disk : Disk)
    (d : DBStructure) (body : String) (user : User)
    (hload : (loadDB noFaults disk).1 = Outcome.ok d) (huniq : emailsUnique d) :
    (∀ c db1 d1, CreateChirp noFaults db disk body = (Outcome.ok c, db1, some (FileData.doc d1)) →
      emailsUnique d1) ∧
    (∀ u db1 d1,
      CreateUser hash noFaults db disk user = (Outcome.ok u, db1, some (FileData.doc d1)) →
      emailsUnique d1) := by
  constructor
  · intro c db1 d1 h
    rw [CreateChirp_noFaults db disk d body hload] at h
    simp only [Prod.mk.injEq, Option.some.injEq, FileData.doc.injEq] at h
    obtain ⟨_, _, rfl⟩ := h
    exact huniq
  · intro u db1 d1 h
    by_cases hex : ∃ v ∈ mapValues (d.Users.getD []), v.Email = user.Email
    · obtain ⟨v, hv, he⟩ := hex
      obtain ⟨c, hc, _⟩ := CreateUser_noFaults_taken hash db disk d user v hload hv he
      rw [hc] at h
      simp at h
    · have hnew : ∀ v ∈ mapValues (d.Users.getD []), v.Email ≠ user.Email := by
        intro v hv he
        exact hex ⟨v, hv, he⟩
      rw [CreateUser_noFaults_new hash db disk d user hload hnew] at h
      simp only [Prod.mk.injEq, Option.some.injEq, FileData.doc.injEq] at h
      obtain ⟨_, _, rfl⟩ := h
      have hsub : (((d.Users.getD []).filter
          (fun e => decide (e.1 ≠ wrapInt (db.lastid + 1)))).map Prod.snd).map User.Email
          |>.Sublist (((d.Users.getD []).map Prod.snd).map User.Email) :=
        ((List.filter_sublist _).map _).map _
      simp only [emailsUnique, mapValues, mapSet, Option.getD_some, List.map_cons,
        List.nodup_cons]
      refine ⟨?_, List.Nodup.sublist hsub huniq⟩
      intro hmem
      obtain ⟨v, hv, he⟩ := List.mem_map.mp (hsub.subset hmem)
      exact hnew v hv he

/-! ## The id counter -/

theorem NewDB_noFaults (disk : Disk) :
    ∃ c : FileData, NewDB noFaults disk = some (⟨0⟩, some c) ∧
      (disk = some c ∨ (disk = none ∧ c = FileData.doc emptyData)) := by
  rcases disk with _ | c
  · exact ⟨FileData.doc emptyData, by simp [NewDB, ensureDB, WriteFile, noFaults], Or.inr ⟨rfl, rfl⟩⟩
  · exact ⟨c, by simp [NewDB, ensureDB, WriteFile, noFaults], Or.inl rfl⟩

/-- C2, as stated, fails: a second instance made by `NewDB` on a file that already holds the
message with id 1 assigns id 1 again, which is not greater than the id present, and the
message that was stored under it is replaced. -/
theorem newDB_reuses_existing_id :
    NewDB noFaults (some (FileData.doc oneChirpDoc)) =
      some (⟨0⟩, some (FileData.doc oneChirpDoc)) ∧
    mapGet (oneChirpDoc.Chirps.getD []) 1 = some ⟨1, "first"⟩ ∧
    CreateChirp noFaults ⟨0⟩ (some (FileData.doc oneChirpDoc)) "second" =
      (Outcome.ok ⟨1, "second"⟩, ⟨1⟩,
        some (FileData.doc ⟨some [(1, ⟨1, "second"⟩)], none⟩)) ∧
    ¬ ((1 : Int) < (⟨1, "second"⟩ : Chirp).Id) := by
  decide

/-- C2, amended: an instance made by `NewDB` starts its counter at 0 whatever the persisted
document holds.  The first create call made on the new instance, be it `CreateChirp` or
`CreateUser` with an email not yet in the document, succeeds with id 1, and the record then
stored under key 1 of that collection is the new one; a create call of the other kind made
right after it gets id 2. -/
theorem newDB_first_id_is_one (hash : String → String) (disk : Disk) (d : DBStructure)
    (body : String) (user : User)
    (hload : (loadDB noFaults disk).1 = Outcome.ok d)
    (hemail : ∀ u ∈ mapValues (d.Users.getD []), u.Email ≠ user.Email) :
    ∃ disk1 : Disk, NewDB noFaults disk = some (⟨0⟩, disk1) ∧
      (∃ d2 : DBStructure,
        CreateChirp noFaults ⟨0⟩ disk1 body =
          (Outcome.ok ⟨1, body⟩, ⟨1⟩, some (FileData.doc d2)) ∧
        mapGet (d2.Chirps.getD []) 1 = some ⟨1, body⟩ ∧
        (CreateUser hash noFaults ⟨1⟩ (some (FileData.doc d2)) user).1 =
          Outcome.ok ⟨2, user.Email, ""⟩) ∧
      (∃ d2 : DBStructure,
        CreateUser hash noFaults ⟨0⟩ disk1 user =
          (Outcome.ok ⟨1, user.Email, ""⟩, ⟨1⟩, some (FileData.doc d2)) ∧
        mapGet (d2.Users.getD []) 1 = some ⟨1, user.Email, hash user.Password⟩ ∧
        (CreateChirp noFaults ⟨1⟩ (some (FileData.doc d2)) body).1 = Outcome.ok ⟨2, body⟩) := by
  obtain ⟨c, hc, hd⟩ := NewDB_noFaults disk
  obtain ⟨c1, h1, h2, h3⟩ := loadDB_noFaults_ok hload
  have hcc : c = c1 := by
    rcases hd with hd | ⟨hd, hd1⟩ <;> rcases h3 with h3 | ⟨h3, h31⟩
    · rw [hd] at h3; exact Option.some.inj h3
    · rw [hd] at h3; cases h3
    · rw [h3] at hd; cases hd
    · rw [hd1, h31]
  subst hcc
  have hl : (loadDB noFaults (some c)).1 = Outcome.ok d := by rw [h2]
  have hw : wrapInt ((0 : Int) + 1) = 1 := by decide
  have hw2 : wrapInt ((1 : Int) + 1) = 2 := by decide
  have hchirp := CreateChirp_noFaults ⟨0⟩ (some c) d body hl
  have huser := CreateUser_noFaults_new hash ⟨0⟩ (some c) d user hl hemail
  simp only [hw] at hchirp huser
  have huser2 := CreateUser_noFaults_new hash ⟨1⟩ _
    ⟨some (mapSet (d.Chirps.getD []) 1 ⟨1, body⟩), d.Users⟩ user
    (by rw [loadDB_noFaults_doc]) hemail
  have hchirp2 := CreateChirp_noFaults ⟨1⟩ _
    ⟨d.Chirps, some (mapSet (d.Users.getD []) 1 ⟨1, user.Email, hash user.Password⟩)⟩ body
    (by rw [loadDB_noFaults_doc])
  simp only [hw2] at huser2 hchirp2
  exact ⟨some c, hc,
    ⟨_, hchirp, by simp [mapGet_mapSet_same], by rw [huser2]⟩,
    ⟨_, huser, by simp [mapGet_mapSet_same], by rw [hchirp2]⟩⟩

theorem newDB_first_id_is_one_witness :
    ∃ disk1 : Disk, NewDB noFaults (some (FileData.doc oneChirpDoc)) = some (⟨0⟩, disk1) ∧
      (∃ d2 : DBStructure,
        CreateChirp noFaults ⟨0⟩ disk1 "second" =
          (Outcome.ok ⟨1, "second"⟩, ⟨1⟩, some (FileData.doc d2)) ∧
        mapGet (d2.Chirps.getD []) 1 = some ⟨1, "second"⟩ ∧
        (CreateUser stubHash noFaults ⟨1⟩ (some (FileData.doc d2)) ⟨0, "a@x.com", "pw"⟩).1 =
          Outcome.ok ⟨2, (⟨0, "a@x.com", "pw"⟩ : User).Email, ""⟩) ∧
      (∃ d2 : DBStructure,
        CreateUser stubHash noFaults ⟨0⟩ disk1 ⟨0, "a@x.com", "pw"⟩ =
          (Outcome.ok ⟨1, (⟨0, "a@x.com", "pw"⟩ : User).Email, ""⟩, ⟨1⟩,
            some (FileData.doc d2)) ∧
        mapGet (d2.Users.getD []) 1 =
          some ⟨1, (⟨0, "a@x.com", "pw"⟩ : User).Email,
            stubHash (⟨0, "a@x.com", "pw"⟩ : User).Password⟩ ∧
        (CreateChirp noFaults ⟨1⟩ (some (FileData.doc d2)) "second").1 =
          Outcome.ok ⟨2, "second"⟩) :=
  newDB_first_id_is_one stubHash (some (FileData.doc oneChirpDoc)) oneChirpDoc "second"
    ⟨0, "a@x.com", "pw"⟩ (by decide) (by simp [oneChirpDoc, mapValues])

/-- C7, as stated, fails: on a fresh store the first account gets id 1 when no message was
created before it, and id 2 when one message was. -/
theorem createChirp_changes_next_user_id :
    (CreateUser stubHash noFaults ⟨0⟩ none ⟨0, "a@x.com", "pw"⟩).1 =
      Outcome.ok ⟨1, "a@x.com", ""⟩ ∧
    CreateChirp noFaults ⟨0⟩ none "hello" =
      (Outcome.ok ⟨1, "hello"⟩, ⟨1⟩,
        some (FileData.doc ⟨some [(1, ⟨1, "hello"⟩)], none⟩)) ∧
    (CreateUser stubHash noFaults ⟨1⟩ (some (FileData.doc ⟨some [(1, ⟨1, "hello"⟩)], none⟩))
        ⟨0, "a@x.com", "pw"⟩).1 =
      Outcome.ok ⟨2, "a@x.com", ""⟩ := by
  decide

/-- C7, amended: messages and accounts draw their ids from the one counter `lastid` of the
instance.  While the counter is below the 64-bit limit, a successful `CreateChirp` assigns
`lastid + 1` and makes the next `CreateUser` assign `lastid + 2`, and a successful
`CreateUser` assigns `lastid + 1` and makes the next `CreateChirp` assign `lastid + 2`. -/
theorem creates_share_one_counter (hash : String → String) (db : DB) (disk : Disk)
    (d : DBStructure) (body : String) (user : User)
    (hload : (loadDB noFaults disk).1 = Outcome.ok d)
    (hemail : ∀ u ∈ mapValues (d.Users.getD []), u.Email ≠ user.Email)
    (hlo : 0 ≤ db.lastid) (hhi : db.lastid + 2 < 9223372036854775808) :
    (∃ db1 disk1 db2 disk2,
      CreateChirp noFaults db disk body = (Outcome.ok ⟨db.lastid + 1, body⟩, db1, disk1) ∧
      CreateUser hash noFaults db1 disk1 user =
        (Outcome.ok ⟨db.lastid + 2, user.Email, ""⟩, db2, disk2)) ∧
    (∃ db1 disk1 db2 disk2,
      CreateUser hash noFaults db disk user =
        (Outcome.ok ⟨db.lastid + 1, user.Email, ""⟩, db1, disk1) ∧
      CreateChirp noFaults db1 disk1 body = (Outcome.ok ⟨db.lastid + 2, body⟩, db2, disk2)) := by
  have hw1 : wrapInt (db.lastid + 1) = db.lastid + 1 :=
    wrapInt_of_inRange _ (by omega) (by omega)
  have hw2 : wrapInt (db.lastid + 1 + 1) = db.lastid + 2 := by
    rw [wrapInt_of_inRange _ (by omega) (by omega)]
    omega
  constructor
  · have h1 := CreateChirp_noFaults db disk d body hload
    rw [hw1] at h1
    have h2 := CreateUser_noFaults_new hash ⟨db.lastid + 1⟩ _
      ⟨some (mapSet (d.Chirps.getD []) (db.lastid + 1) ⟨db.lastid + 1, body⟩), d.Users⟩ user
      (by rw [loadDB_noFaults_doc]) hemail
    simp only [hw2] at h2
    exact ⟨_, _, _, _, h1, h2⟩
  · have h1 := CreateUser_noFaults_new hash db disk d user hload hemail
    rw [hw1] at h1
    have h2 := CreateChirp_noFaults ⟨db.lastid + 1⟩ _
      ⟨d.Chirps, some (mapSet (d.Users.getD []) (db.lastid + 1)
        ⟨db.lastid + 1, user.Email, hash user.Password⟩)⟩ body
      (by rw [loadDB_noFaults_doc])
    simp only [hw2] at h2
    exact ⟨_, _, _, _, h1, h2⟩

theorem creates_share_one_counter_witness :
    (∃ db1 disk1 db2 disk2,
      CreateChirp noFaults ⟨0⟩ none "hello" =
        (Outcome.ok ⟨(⟨0⟩ : DB).lastid + 1, "hello"⟩, db1, disk1) ∧
      CreateUser stubHash noFaults db1 disk1 ⟨0, "a@x.com", "pw"⟩ =
        (Outcome.ok ⟨(⟨0⟩ : DB).lastid + 2, (⟨0, "a@x.com", "pw"⟩ : User).Email, ""⟩,
          db2, disk2)) ∧
    (∃ db1 disk1 db2 disk2,
      CreateUser stubHash noFaults ⟨0⟩ none ⟨0, "a@x.com", "pw"⟩ =
        (Outcome.ok ⟨(⟨0⟩ : DB).lastid + 1, (⟨0, "a@x.com", "pw"⟩ : User).Email, ""⟩,
          db1, disk1) ∧
      CreateChirp noFaults db1 disk1 "hello" =
        (Outcome.ok ⟨(⟨0⟩ : DB).lastid + 2, "hello"⟩, db2, disk2)) :=
  creates_share_one_counter stubHash ⟨0⟩ none emptyData "hello" ⟨0, "a@x.com", "pw"⟩
    (by decide) (by simp [emptyData, mapValues]) (by decide) (by decide)

/-! ## Token lifetime -/

/-- C6 (the code departs from it): the guard of `GetJWTToken` replaces 0 and values above
86400 but lets negative requests through.  A request of -1 second gives a token that expires
one second before it was issued, and for a request of -9223372037 seconds the 64-bit product
with `time.Second` wraps, giving a token that lives 9223372036 seconds, far above 86400. -/
theorem getJWTToken_negative_lifetime :
    effectiveDuration (-1) = -1 ∧
    (GetJWTToken 1700000000123456789 1700000000123456789 (-1) 7).ExpiresAt -
        (GetJWTToken 1700000000123456789 1700000000123456789 (-1) 7).IssuedAt =
      timeSecond * (-1) ∧
    ¬ ((0 : Int) < -1) ∧
    effectiveDuration (-9223372037) = -9223372037 ∧
    (GetJWTToken 1700000000123456789 1700000000123456789 (-9223372037) 7).ExpiresAt -
        (GetJWTToken 1700000000123456789 1700000000123456789 (-9223372037) 7).IssuedAt =
      timeSecond * 9223372036 ∧
    ¬ ((9223372036 : Int) ≤ 86400) := by
  decide

/-- For every requested lifetime that is not negative the guard does what is asked of it: the
lifetime used lies in (0, 86400], 0 and every value above 86400 are replaced by 86400, every
other value is used as it is; `ExpiresAt` is the clock reading it is computed from, cut to the
second, plus that many seconds, and `IssuedAt` is the other clock reading cut to the second. -/
theorem getJWTToken_lifetime (now1 now2 duration userId : Int) (hd : 0 ≤ duration) :
    0 < effectiveDuration duration ∧ effectiveDuration duration ≤ 86400 ∧
    effectiveDuration duration = (if duration = 0 ∨ 86400 < duration then 86400 else duration) ∧
    (GetJWTToken now1 now2 duration userId).ExpiresAt =
      NewNumericDate now2 + timeSecond * effectiveDuration duration ∧
    (GetJWTToken now1 now2 duration userId).IssuedAt = NewNumericDate now1 := by
  have h24 : default24hours = 86400 := by decide
  have he : effectiveDuration duration =
      (if duration = 0 ∨ 86400 < duration then 86400 else duration) := by
    simp only [effectiveDuration, h24, gt_iff_lt]
  have hpos : 0 < effectiveDuration duration ∧ effectiveDuration duration ≤ 86400 := by
    rw [he]
    split_ifs with h <;> omega
  refine ⟨hpos.1, hpos.2, he, ?_, rfl⟩
  have hw : wrapInt (timeSecond * effectiveDuration duration) =
      timeSecond * effectiveDuration duration := by
    apply wrapInt_of_inRange <;> simp only [timeSecond] <;> omega
  simp only [GetJWTToken, hw, NewNumericDate]
  have hmod : (now2 + timeSecond * effectiveDuration duration) % timeSecond =
      now2 % timeSecond :=
    Int.add_mul_emod_self_left now2 timeSecond (effectiveDuration duration)
  rw [hmod]
  ring

theorem getJWTToken_lifetime_witness :
    0 < effectiveDuration 90000 ∧ effectiveDuration 90000 ≤ 86400 ∧
    effectiveDuration 90000 =
      (if (90000 : Int) = 0 ∨ (86400 : Int) < 90000 then 86400 else 90000) ∧
    (GetJWTToken 1700000000123456789 1700000000123460000 90000 7).ExpiresAt =
      NewNumericDate 1700000000123460000 + timeSecond * effectiveDuration 90000 ∧
    (GetJWTToken 1700000000123456789 1700000000123460000 90000 7).IssuedAt =
      NewNumericDate 1700000000123456789 :=
  getJWTToken_lifetime 1700000000123456789 1700000000123460000 90000 7 (by decide)

/-! ## A run of creations on one instance -/

theorem filter_keys_below {α : Type} (m : GoMap α) (n k : Int) (hk : n < k)
    (hm : ∀ e ∈ m, e.1 ≤ n) : m.filter (fun e => decide (e.1 ≠ k)) = m := by
  rw [List.filter_eq_self]
  intro e he
  have := hm e he
  simp only [ne_eq, decide_eq_true_eq]
  omega

theorem createChirps_run (us : Option (GoMap User)) (bodies : List String) :
    ∀ (n : Int) (cs : Option (GoMap Chirp)), 0 ≤ n →
      n + (bodies.length : Int) < 9223372036854775808 →
      (∀ e ∈ cs.getD [], e.1 ≤ n) →
      ∃ (chirps : List Chirp) (db1 : DB) (disk1 : Disk),
        createChirps noFaults bodies ⟨n⟩ (some (FileData.doc ⟨cs, us⟩)) =
          (chirps.map Outcome.ok, db1, disk1) ∧
        chirps.map Chirp.Body = bodies ∧
        (∀ c ∈ chirps, n < c.Id) ∧
        (chirps.map Chirp.Id).Pairwise (fun a b => a < b) ∧
        (GetChirps noFaults disk1).1 =
          Outcome.ok (chirps.reverse ++ mapValues (cs.getD [])) := by
  induction bodies with
  | nil =>
    intro n cs _ _ _
    refine ⟨[], ⟨n⟩, some (FileData.doc ⟨cs, us⟩), rfl, rfl, ?_, List.Pairwise.nil, ?_⟩
    · intro c hc
      cases hc
    · simp [GetChirps, loadDB_noFaults_doc]
  | cons body rest ih =>
    intro n cs hn hlen hkeys
    have hlen1 : n + 1 + (rest.length : Int) < 9223372036854775808 := by
      simp only [List.length_cons, Nat.cast_add, Nat.cast_one] at hlen
      omega
    have hrest : (0 : Int) ≤ (rest.length : Int) := Int.ofNat_nonneg _
    have hw : wrapInt (n + 1) = n + 1 := wrapInt_of_inRange _ (by omega) (by omega)
    have hcreate := CreateChirp_noFaults ⟨n⟩ _ ⟨cs, us⟩ body (by rw [loadDB_noFaults_doc])
    simp only [hw, mapSet, filter_keys_below (cs.getD []) n (n + 1) (by omega) hkeys]
      at hcreate
    obtain ⟨chirps, db1, disk1, hrun, hbodies, hids, hpair, hget⟩ :=
      ih (n + 1) (some ((n + 1, ⟨n + 1, body⟩) :: cs.getD [])) (by omega) hlen1
        (by
          intro e he
          simp only [Option.getD_some, List.mem_cons] at he
          rcases he with he | he
          · rw [he]
          · have := hkeys e he
            omega)
    refine ⟨⟨n + 1, body⟩ :: chirps, db1, disk1, ?_, ?_, ?_, ?_, ?_⟩
    · simp only [createChirps, hcreate, hrun, List.map_cons]
    · simp only [List.map_cons, hbodies]
    · intro c hc
      simp only [List.mem_cons] at hc
      rcases hc with hc | hc
      · rw [hc]
        show n < n + 1
        omega
      · have := hids c hc
        omega
    · simp only [List.map_cons, List.pairwise_cons]
      refine ⟨?_, hpair⟩
      intro a ha
      obtain ⟨c, hc, rfl⟩ := List.mem_map.mp ha
      exact hids c hc
    · rw [hget]
      simp [mapValues]

/-- C8: on a store just created by `NewDB` at a path that did not exist, any number N (below
the 64-bit limit) of `CreateChirp` calls run one after the other all succeed, with pairwise
distinct ids and the given bodies, and `GetChirps` then returns exactly N records: the
created ones, each once. -/
theorem createChirps_on_fresh_store (bodies : List String)
    (hN : (bodies.length : Int) < 9223372036854775808) :
    ∃ db disk, NewDB noFaults none = some (db, disk) ∧
      ∃ (chirps : List Chirp) (db1 : DB) (disk1 : Disk) (listed : List Chirp),
        createChirps noFaults bodies db disk = (chirps.map Outcome.ok, db1, disk1) ∧
        chirps.length = bodies.length ∧
        chirps.map Chirp.Body = bodies ∧
        (chirps.map Chirp.Id).Nodup ∧
        (GetChirps noFaults disk1).1 = Outcome.ok listed ∧
        listed.length = bodies.length ∧
        listed.Perm chirps := by
  refine ⟨⟨0⟩, some (FileData.doc emptyData), by simp [NewDB, ensureDB, WriteFile, noFaults], ?_⟩
  obtain ⟨chirps, db1, disk1, hrun, hbodies, _, hpair, hget⟩ :=
    createChirps_run none bodies 0 none (le_refl 0) (by omega)
      (by
        intro e he
        cases he)
  have hlen : chirps.length = bodies.length := by
    rw [← hbodies, List.length_map]
  refine ⟨chirps, db1, disk1, chirps.reverse, hrun, hlen, hbodies, ?_, ?_, ?_,
    List.reverse_perm chirps⟩
  · exact hpair.imp (fun h => ne_of_lt h)
  · rw [hget]
    simp [mapValues]
  · rw [List.length_reverse, hlen]

theorem createChirps_on_fresh_store_witness :
    ∃ db disk, NewDB noFaults none = some (db, disk) ∧
      ∃ (chirps : List Chirp) (db1 : DB) (disk1 : Disk) (listed : List Chirp),
        createChirps noFaults ["one", "two", "one"] db disk =
          (chirps.map Outcome.ok, db1, disk1) ∧
        chirps.length = ["one", "two", "one"].length ∧
        chirps.map Chirp.Body = ["one", "two", "one"] ∧
        (chirps.map Chirp.Id).Nodup ∧
        (GetChirps noFaults disk1).1 = Outcome.ok listed ∧
        listed.length = ["one", "two", "one"].length ∧
        listed.Perm chirps :=
  createChirps_on_fresh_store ["one", "two", "one"] (by decide)

end Chirpy
